import Mathlib

/-!
Verification of the NeuroResolv progression & adaptation engine.

This file gives a shallow embedding, in Lean 4, of the core state and
operations of the repository's backend (streak accounting, verification-quiz
lifecycle, goal-likelihood scoring, refresh scheduling, milestone state
transitions, daily-session quiz grading), translated from the Python source
under `backend/app`, and proves properties of that embedding.

Modelling conventions:
- Calendar days and timestamps are integers (`ℤ`): a date is its day index,
  a timestamp its instant index; `today - 1` is "yesterday" and intervals are
  counted in days (1 week = 7 days).
- Python `float` arithmetic on scores is modelled by exact rational
  arithmetic (`ℚ`); `round(x, 2)` becomes rounding to an integer number of
  hundredths.
- A FastAPI handler raising `HTTPException` is modelled as a function into
  `Except ApiError _`; since a raise aborts the transaction before any
  commit, an `Except.error` result models a request that leaves the stored
  state unchanged.
- SQLAlchemy rows become Lean structures; a nullable column becomes an
  `Option`; collections owned by a row become lists.
-/

/-- Error outcomes a request handler can produce. `conflict` stands for the
rejections the spec's taxonomy files under `Conflict` (duplicate same-day
log, double quiz submission); `notFound` for a missing or un-owned entity. -/
inductive ApiError where
  | notFound
  | conflict
deriving DecidableEq, Repr

/-- Streak row (`app/db/models.py`, class `Streak`): per-goal counters with
nullable last-activity dates. Counter columns are non-negative integers. -/
structure Streak where
  current_streak : ℕ
  longest_streak : ℕ
  total_verified_days : ℕ
  last_log_date : Option ℤ
  last_verified_date : Option ℤ
deriving DecidableEq, Repr

/-- Streak block of `log_progress` (`app/api/progress.py` lines 84-94),
run when a new progress log for day `today` is accepted: if
`last_log_date` is yesterday or null the current streak is incremented,
else if it differs from today it is reset to 1; then `last_log_date`
becomes today and `longest_streak` is raised to `current_streak` when
exceeded. -/
def streak_update (s : Streak) (today : ℤ) : Streak :=
  let s1 :=
    if s.last_log_date = some (today - 1) ∨ s.last_log_date = none then
      { s with current_streak := s.current_streak + 1 }
    else if s.last_log_date ≠ some today then
      { s with current_streak := 1 }
    else s
  let s2 := { s1 with last_log_date := some today }
  if s2.longest_streak < s2.current_streak then
    { s2 with longest_streak := s2.current_streak }
  else s2

/-- Handler `log_progress` (`app/api/progress.py` lines 47-99) restricted to
one goal: `logs` is the set of dates of the goal's existing `ProgressLog`
rows, `streak` its optional `Streak` row. A duplicate same-day log is
rejected before any write; otherwise the entry for `today` is inserted and
the streak row, when present, is updated. -/
def log_progress (logs : List ℤ) (streak : Option Streak) (today : ℤ) :
    Except ApiError (List ℤ × Option Streak) :=
  if today ∈ logs then .error .conflict
  else .ok (today :: logs, streak.map (streak_update · today))

/-- Iterated daily logging: starting from streak row `s`, apply the streak
update on `n` consecutive days `start, start + 1, …, start + n - 1`. -/
def streak_run (s : Streak) (start : ℤ) : ℕ → Streak
  | 0 => s
  | n + 1 => streak_update (streak_run s start n) (start + n)

/-- Rounding of a rational to two decimal places, the model of Python's
`round(x, 2)` used on exact score arithmetic. -/
def round2 (q : ℚ) : ℚ := (round (q * 100) : ℤ) / 100

/-- Function `calculate_goal_likelihood_score`
(`app/agents/roadmap_agent.py` lines 272-311). Inputs: the streak counters,
the list of milestone status strings, the list of progress-log presence
flags (the Python code counts the truthy entries of `progress_logs`), and
the optional list of verification scores. -/
def calculate_goal_likelihood_score (current_streak longest_streak : ℕ)
    (milestones : List String) (progress_logs : List Bool)
    (verification_scores : Option (List ℚ)) : ℚ :=
  let streak_frac := min ((current_streak : ℚ) / (max longest_streak 7 : ℕ)) 1
  let completed := (milestones.filter (fun st => st = "completed")).length
  let total := max milestones.length 1
  let milestone_frac := (completed : ℚ) / (total : ℚ)
  let recent_logs := (progress_logs.filter (fun b => b)).length
  let frequency_frac := min ((recent_logs : ℚ) / 7) 1
  let verification_frac :=
    match verification_scores with
    | some (v :: vs) => ((v :: vs).sum) / (((v :: vs).length : ℕ) : ℚ)
    | _ => 1 / 2
  round2 (3 / 10 * streak_frac + 3 / 10 * milestone_frac
    + 1 / 5 * frequency_frac + 1 / 5 * verification_frac)

/-- Refresh-interval table of `calculate_next_refresh_date`
(`app/agents/roadmap_agent.py` lines 327-334), in days: the
`refresh_intervals` dict lookup with its two-week default. -/
def refresh_interval (cadence : String) : ℤ :=
  if cadence = "daily" then 7
  else if cadence = "3x_week" then 14
  else if cadence = "weekdays" then 14
  else if cadence = "weekly" then 28
  else 14

/-- Function `calculate_next_refresh_date`
(`app/agents/roadmap_agent.py` lines 314-341); `now` is the call-time
`datetime.utcnow()`, passed explicitly. -/
def calculate_next_refresh_date (cadence : String) (last_refresh : Option ℤ)
    (now : ℤ) : ℤ :=
  let base_date := last_refresh.getD now
  let interval := refresh_interval cadence
  let next_refresh := base_date + interval
  if next_refresh ≤ now then now + interval else next_refresh

/-- Milestone row (`app/db/models.py`, class `Milestone`): ordered sub-goal
of a resolution with `status ∈ {"pending", "in_progress", "completed"}`
(column default `"pending"`). -/
structure Milestone where
  id : ℕ
  order : ℕ
  title : String
  description : String
  verification_criteria : String
  target_date : Option ℤ
  status : String
  is_edited : Bool
  completed_at : Option ℤ
deriving DecidableEq, Repr

/-- Resolution row (`app/db/models.py`, class `Resolution`) restricted to
the fields the milestone state machine touches, together with its owned
milestone collection. -/
structure Resolution where
  status : String
  current_milestone : ℕ
  roadmap_needs_refresh : Bool
  milestones : List Milestone
deriving DecidableEq, Repr

/-- Completion write of `complete_milestone` (`app/api/resolutions.py`
lines 300-301) applied through the session identity map: the milestone row
with id `mid` gets status `"completed"` and `completed_at = now`. -/
def set_completed (mid : ℕ) (now : ℤ) (m : Milestone) : Milestone :=
  if m.id = mid then { m with status := "completed", completed_at := some now }
  else m

/-- Python `min` by key over a nonempty list: returns the first element of
minimal `order`, as `min((...), key=lambda m: m.order)` does. -/
def min_by_order (m : Milestone) (l : List Milestone) : Milestone :=
  l.foldl (fun b x => if x.order < b.order then x else b) m

/-- Selection step of `complete_milestone` (`app/api/resolutions.py`
lines 310-314): the lowest-order milestone with status `"pending"`, or
`none` when no pending milestone exists (`default=None`). -/
def lowest_pending (ms : List Milestone) : Option Milestone :=
  match ms.filter (fun m => m.status = "pending") with
  | [] => none
  | m :: rest => some (min_by_order m rest)

/-- Promotion write of `complete_milestone` (`app/api/resolutions.py`
line 317): the milestone row with id `nid` gets status `"in_progress"`. -/
def promote (nid : ℕ) (m : Milestone) : Milestone :=
  if m.id = nid then { m with status := "in_progress" } else m

/-- Handler `complete_milestone` (`app/api/resolutions.py` lines 284-325)
on the resolution owning milestone `mid`: marks the milestone completed,
promotes the lowest-order pending milestone and records its order in
`current_milestone`, or, when none is pending, completes the resolution. -/
def complete_milestone (r : Resolution) (mid : ℕ) (now : ℤ) :
    Except ApiError Resolution :=
  if (r.milestones.find? (fun m => m.id = mid)).isSome then
    let ms := r.milestones.map (set_completed mid now)
    match lowest_pending ms with
    | some nm =>
        .ok { r with milestones := ms.map (promote nm.id),
                     current_milestone := nm.order }
    | none => .ok { r with milestones := ms, status := "completed" }
  else .error .notFound

/-- Update payload of the `PUT /milestones/{id}` handler
(`app/schemas.py`, `MilestoneUpdate`): all fields optional. -/
structure MilestoneUpdate where
  title : Option String
  description : Option String
  verification_criteria : Option String
  target_date : Option ℤ
deriving DecidableEq, Repr

/-- Handler `update_milestone` (`app/api/resolutions.py` lines 244-281):
edits text fields of milestone `mid`, sets `is_edited` on it and
`roadmap_needs_refresh` on the parent; the status column is not written. -/
def update_milestone (r : Resolution) (mid : ℕ) (data : MilestoneUpdate) :
    Except ApiError Resolution :=
  if (r.milestones.find? (fun m => m.id = mid)).isSome then
    .ok { r with
          milestones := r.milestones.map (fun m =>
            if m.id = mid then
              { m with
                title := data.title.getD m.title,
                description := data.description.getD m.description,
                verification_criteria :=
                  data.verification_criteria.getD m.verification_criteria,
                target_date :=
                  match data.target_date with
                  | some d => some d
                  | none => m.target_date,
                is_edited := true }
            else m),
          roadmap_needs_refresh := true }
  else .error .notFound

/-- Milestone data drawn from a generated or manual roadmap
(`app/api/resolutions.py` lines 185-196 and 732-742): a freshly inserted
`Milestone` row carries these fields and the column defaults, in
particular status `"pending"`. -/
structure MilestoneDraft where
  id : ℕ
  order : ℕ
  title : String
  description : String
  verification_criteria : String
  target_date : Option ℤ
deriving DecidableEq, Repr

/-- Row construction for a roadmap milestone insert: every newly created
milestone has the column defaults `status = "pending"`,
`is_edited = false`, `completed_at = null`. -/
def new_milestone (d : MilestoneDraft) : Milestone :=
  ⟨d.id, d.order, d.title, d.description, d.verification_criteria,
    d.target_date, "pending", false, none⟩

/-- Handlers `generate_resolution_roadmap` and `save_manual_roadmap`
(`app/api/resolutions.py` lines 146-213 and 709-756) as they act on the
milestone collection: existing milestones are deleted and replaced by
fresh pending rows. -/
def replace_roadmap (r : Resolution) (drafts : List MilestoneDraft) :
    Resolution :=
  { r with milestones := drafts.map new_milestone,
           roadmap_needs_refresh := false }

/-- Public operations of the repository that write the milestone table,
for the one-`in_progress`-per-goal invariant: roadmap (re)generation,
milestone edit, milestone completion. All other handlers never write
milestone rows. -/
inductive ResolutionOp where
  | roadmap (drafts : List MilestoneDraft)
  | update (mid : ℕ) (data : MilestoneUpdate)
  | complete (mid : ℕ) (now : ℤ)
deriving DecidableEq, Repr

/-- Dispatch of a milestone-writing operation to its handler. -/
def run_op (r : Resolution) : ResolutionOp → Except ApiError Resolution
  | .roadmap drafts => .ok (replace_roadmap r drafts)
  | .update mid data => update_milestone r mid data
  | .complete mid now => complete_milestone r mid now

/-- Number of milestones of a collection whose status is `"in_progress"`. -/
def in_progress_count (ms : List Milestone) : ℕ :=
  ms.countP (fun m => m.status = "in_progress")

/-- Verification quiz row (`app/db/models.py`, class `VerificationQuiz`):
1:1 with a progress log; question and response payloads are kept as
raw JSON blobs. -/
structure VerificationQuiz where
  questions : List String
  responses : List String
  quiz_type : String
  score : Option ℚ
  passed : Option Bool
  is_completed : Bool
  completed_at : Option ℤ
deriving DecidableEq, Repr

/-- Progress log row (`app/db/models.py`, class `ProgressLog`) with its
optional verification quiz. -/
structure ProgressLogRow where
  content : String
  source_reference : Option String
  verified : Bool
  verification_score : Option ℚ
  concepts_claimed : List String
  verification_quiz : Option VerificationQuiz
deriving DecidableEq, Repr

/-- Result shape returned by `generate_verification_quiz`
(`app/agents/verification_agent.py`): a question list together with an
optional `search_context` string. -/
structure QuizData where
  questions : List String
  search_context : Option String
deriving DecidableEq, Repr

/-- Handler `generate_progress_verification` (`app/api/progress.py`
lines 123-196) on one progress log: if a quiz already exists it is
returned as-is and nothing is written; otherwise a fresh quiz row built
from `quiz_data` (the awaited generation result) is attached. The returned
pair is (response quiz, updated progress log). -/
def generate_progress_verification (e : ProgressLogRow) (quiz_data : QuizData) :
    VerificationQuiz × ProgressLogRow :=
  match e.verification_quiz with
  | some quiz => (quiz, e)
  | none =>
    let quiz : VerificationQuiz :=
      ⟨quiz_data.questions, [],
        if quiz_data.search_context.isSome then "contextual" else "teach_back",
        none, none, false, none⟩
    (quiz, { e with verification_quiz := some quiz })

/-- Grading payload produced by `grade_verification_quiz`
(`app/agents/verification_agent.py`): per-question correctness flags, the
overall score in `[0,1]`, the pass verdict, and concepts to reinforce. -/
structure GradingResult where
  evaluations : List Bool
  overall_score : ℚ
  passed : Bool
  concepts_to_reinforce : List String
deriving DecidableEq, Repr

/-- Deterministic fallback of `grade_verification_quiz`
(`app/agents/verification_agent.py` lines 218-225), returned when the
oracle call raises: empty evaluations, `overall_score = 0.5`,
`passed = True`, no concepts. -/
def fallback_grading_result : GradingResult :=
  ⟨[], 1 / 2, true, []⟩

/-- Function `grade_verification_quiz` (`app/agents/verification_agent.py`
lines 177-225): the oracle outcome is `some g` on a successful, parsed
response and `none` on any raised exception, in which case the
deterministic fallback is returned. -/
def grade_verification_quiz (oracle : Option GradingResult) : GradingResult :=
  match oracle with
  | some g => g
  | none => fallback_grading_result

/-- Modelled from the spec: `analyze_failure_and_suggest_recovery` is
re-exported by `app/agents/__init__.py` (lines 1-4) and called from
`submit_verification_quiz`, but its definition in
`app/agents/adaptive_agent.py` is absent from the source tree. Per spec
§4.6 it holds a remediation plan — weak concepts, review strategies,
encouragement, `should_revisit_milestone`. -/
structure RecoveryAdvice where
  weak_concepts : List String
  review_strategies : List String
  encouragement : String
  should_revisit_milestone : Bool
deriving DecidableEq, Repr

/-- Modelled from the spec: the deterministic generic remediation bundle
that §4.6 prescribes on oracle failure. -/
def fallback_recovery_advice : RecoveryAdvice :=
  ⟨[], [], "Keep going - review the material and try again.", false⟩

/-- Modelled from the spec: `analyze_failure_and_suggest_recovery`
requests a remediation plan from the oracle, falls back to the
deterministic bundle on oracle failure, and is advisory only — it is a
pure function of the oracle outcome and mutates no application state. -/
def analyze_failure_and_suggest_recovery (oracle : Option RecoveryAdvice) :
    RecoveryAdvice :=
  match oracle with
  | some advice => advice
  | none => fallback_recovery_advice

/-- Post-state and response data of a successful quiz submission. -/
structure SubmitOutcome where
  quiz : VerificationQuiz
  entry : ProgressLogRow
  resolution : Resolution
  streak : Option Streak
  streak_updated : Bool
  recovery_advice : Option RecoveryAdvice
deriving DecidableEq, Repr

/-- Handler `submit_verification_quiz` (`app/api/progress.py`
lines 199-286) on a quiz, its parent progress log, the owning resolution
and its optional streak row. `grading_oracle` is the oracle outcome of
`grade_verification_quiz` (`none` models an oracle failure), and
`recovery_oracle` that of the advisory failure analysis. An already
completed quiz is rejected before any write. On a passing grade the
verification counters of the streak advance; on a failing grade the
failure analysis runs only when some milestone is `in_progress`, and its
advice is returned without touching any row. -/
def submit_verification_quiz (quiz : VerificationQuiz) (entry : ProgressLogRow)
    (resolution : Resolution) (streak : Option Streak)
    (grading_oracle : Option GradingResult)
    (recovery_oracle : Option RecoveryAdvice)
    (answers : List String) (today now : ℤ) :
    Except ApiError SubmitOutcome :=
  if quiz.is_completed then .error .conflict
  else
    let g := grade_verification_quiz grading_oracle
    let quiz1 : VerificationQuiz :=
      { quiz with
        responses := answers,
        score := some g.overall_score,
        passed := some g.passed,
        is_completed := true,
        completed_at := some now }
    let entry1 : ProgressLogRow :=
      { entry with
        verified := g.passed,
        verification_score := some g.overall_score,
        concepts_claimed := g.concepts_to_reinforce }
    match streak with
    | some s =>
      if g.passed then
        .ok ⟨quiz1, entry1, resolution,
          some { s with
                 total_verified_days := s.total_verified_days + 1,
                 last_verified_date := some today },
          true, none⟩
      else
        let current :=
          resolution.milestones.find? (fun m => m.status = "in_progress")
        match current with
        | some _ =>
          .ok ⟨quiz1, entry1, resolution, some s, false,
            some (analyze_failure_and_suggest_recovery recovery_oracle)⟩
        | none => .ok ⟨quiz1, entry1, resolution, some s, false, none⟩
    | none => .ok ⟨quiz1, entry1, resolution, none, false, none⟩

/-- Daily session row (`app/db/models.py`, class `DailySession`) restricted
to the fields the submission path reads and writes. -/
structure SessionRow where
  day_number : ℕ
  is_reinforcement : Bool
deriving DecidableEq, Repr

/-- Score formula of `submit_quiz` (`app/api/sessions.py` lines 264-265):
percentage of correct answers, `0` when the quiz has no questions. -/
def session_quiz_score (correct_count total_questions : ℕ) : ℚ :=
  if 0 < total_questions then
    (correct_count : ℚ) / (total_questions : ℚ) * 100
  else 0

/-- Handler `submit_quiz` (`app/api/sessions.py` lines 181-317) reduced to
its state effects: `correct_count` and `total_questions` come from the
grading loop, `weak_concepts` is the collected weak-concept list, and
`adaptation_reinforcement` tells whether the adaptation plan carries
reinforcement content. Returns the new `current_day`, the session list
after a possible reinforcement insert, the score and the pass verdict. -/
def submit_quiz (current_day : ℕ) (session : SessionRow)
    (correct_count total_questions : ℕ) (weak_concepts : List String)
    (adaptation_reinforcement : Bool) (sessions : List SessionRow) :
    ℕ × List SessionRow × ℚ × Bool :=
  let score := session_quiz_score correct_count total_questions
  let passed : Bool := decide (70 ≤ score)
  let current_day1 :=
    if passed = true ∧ session.day_number = current_day + 1 then
      current_day + 1
    else current_day
  let sessions1 :=
    if passed = false ∧ weak_concepts ≠ [] ∧ adaptation_reinforcement then
      sessions ++ [⟨session.day_number, true⟩]
    else sessions
  (current_day1, sessions1, score, passed)

/-! Helper lemmas. -/

/-- Rounding to two decimals is monotone. -/
theorem round2_mono {p q : ℚ} (h : p ≤ q) : round2 p ≤ round2 q := by
  unfold round2
  have hr : round (p * 100) ≤ round (q * 100) := by
    rw [round_eq, round_eq]
    exact Int.floor_mono (by linarith)
  have : ((round (p * 100) : ℤ) : ℚ) ≤ ((round (q * 100) : ℤ) : ℚ) := by
    exact_mod_cast hr
  linarith

/-- Rounding to two decimals keeps the unit interval. -/
theorem round2_mem_unit {q : ℚ} (h0 : 0 ≤ q) (h1 : q ≤ 1) :
    0 ≤ round2 q ∧ round2 q ≤ 1 := by
  have l0 : round2 0 ≤ round2 q := round2_mono h0
  have l1 : round2 q ≤ round2 1 := round2_mono h1
  have e0 : round2 0 = 0 := by norm_num [round2]
  have e1 : round2 1 = 1 := by norm_num [round2, round_eq]
  constructor
  · simpa [e0] using l0
  · simpa [e1] using l1

/-- Weighted combination of four unit-interval signals with weights
0.3, 0.3, 0.2, 0.2 stays in the unit interval. -/
theorem weighted_signals_unit {a b c d : ℚ}
    (ha0 : 0 ≤ a) (ha1 : a ≤ 1) (hb0 : 0 ≤ b) (hb1 : b ≤ 1)
    (hc0 : 0 ≤ c) (hc1 : c ≤ 1) (hd0 : 0 ≤ d) (hd1 : d ≤ 1) :
    0 ≤ 3 / 10 * a + 3 / 10 * b + 1 / 5 * c + 1 / 5 * d ∧
      3 / 10 * a + 3 / 10 * b + 1 / 5 * c + 1 / 5 * d ≤ 1 := by
  constructor <;> nlinarith

/-- C6: `calculate_goal_likelihood_score` returns the two-decimal rounding
of `0.3·min(current_streak/max(longest_streak,7),1)
+ 0.3·(completed/max(total,1)) + 0.2·min(recent_logs/7,1)
+ 0.2·(mean verification score, 0.5 when absent)`; for verification scores
in `[0,1]` the result lies in `[0,1]` (in particular for zero milestones
and zero logs), and on the spec's example inputs it equals `0.67`. -/
theorem calculate_goal_likelihood_score_spec :
    (∀ cs ls : ℕ, ∀ ms : List String, ∀ logs : List Bool,
      ∀ scores : Option (List ℚ),
      calculate_goal_likelihood_score cs ls ms logs scores =
        round2 (3 / 10 * min ((cs : ℚ) / max (ls : ℚ) 7) 1
          + 3 / 10 * (((ms.countP (fun st => st = "completed")) : ℚ)
              / max (ms.length : ℚ) 1)
          + 1 / 5 * min (((logs.countP (fun b => b)) : ℚ) / 7) 1
          + 1 / 5 * (match scores with
              | some (v :: vs) => ((v :: vs).sum) / ((v :: vs).length : ℚ)
              | _ => 1 / 2))) ∧
    (∀ cs ls : ℕ, ∀ ms : List String, ∀ logs : List Bool,
      ∀ scores : Option (List ℚ),
      (∀ q ∈ scores.getD [], 0 ≤ q ∧ q ≤ 1) →
      0 ≤ calculate_goal_likelihood_score cs ls ms logs scores ∧
        calculate_goal_likelihood_score cs ls ms logs scores ≤ 1) ∧
    calculate_goal_likelihood_score 5 10
      ["completed", "completed", "in_progress", "pending"]
      [true, true, true, true, true, true, true]
      (some [4 / 5, 9 / 10]) = 67 / 100 := by
  refine ⟨?_, ?_, ?_⟩
  · intro cs ls ms logs scores
    unfold calculate_goal_likelihood_score
    push_cast [List.countP_eq_length_filter]
    rfl
  · intro cs ls ms logs scores hq
    unfold calculate_goal_likelihood_score
    have h7 : (0 : ℚ) < ((max ls 7 : ℕ) : ℚ) := by
      have : (7 : ℕ) ≤ max ls 7 := le_max_right ls 7
      exact_mod_cast lt_of_lt_of_le (by norm_num) this
    have ha0 : 0 ≤ min ((cs : ℚ) / ((max ls 7 : ℕ) : ℚ)) 1 :=
      le_min (div_nonneg (Nat.cast_nonneg cs) h7.le) (by norm_num)
    have ha1 : min ((cs : ℚ) / ((max ls 7 : ℕ) : ℚ)) 1 ≤ 1 := min_le_right _ _
    have htot : (0 : ℚ) < ((max ms.length 1 : ℕ) : ℚ) := by
      have : (1 : ℕ) ≤ max ms.length 1 := le_max_right ms.length 1
      exact_mod_cast lt_of_lt_of_le (by norm_num) this
    have hble : ((ms.filter (fun st => st = "completed")).length : ℚ)
        ≤ ((max ms.length 1 : ℕ) : ℚ) := by
      have h1 : (ms.filter (fun st => st = "completed")).length ≤ ms.length :=
        List.length_filter_le _ _
      have h2 : ms.length ≤ max ms.length 1 := le_max_left ms.length 1
      exact_mod_cast le_trans h1 h2
    have hb0 : 0 ≤ ((ms.filter (fun st => st = "completed")).length : ℚ)
        / ((max ms.length 1 : ℕ) : ℚ) :=
      div_nonneg (Nat.cast_nonneg _) htot.le
    have hb1 : ((ms.filter (fun st => st = "completed")).length : ℚ)
        / ((max ms.length 1 : ℕ) : ℚ) ≤ 1 := (div_le_one htot).mpr hble
    have hc0 : 0 ≤ min (((logs.filter (fun b => b)).length : ℚ) / 7) 1 :=
      le_min (div_nonneg (Nat.cast_nonneg _) (by norm_num)) (by norm_num)
    have hc1 : min (((logs.filter (fun b => b)).length : ℚ) / 7) 1 ≤ 1 :=
      min_le_right _ _
    have hd : 0 ≤ (match scores with
          | some (v :: vs) => ((v :: vs).sum) / (((v :: vs).length : ℕ) : ℚ)
          | _ => 1 / 2) ∧
        (match scores with
          | some (v :: vs) => ((v :: vs).sum) / (((v :: vs).length : ℕ) : ℚ)
          | _ => 1 / 2) ≤ 1 := by
      match scores with
      | none => exact ⟨by norm_num, by norm_num⟩
      | some [] => exact ⟨by norm_num, by norm_num⟩
      | some (v :: vs) =>
        have hmem : ∀ q ∈ v :: vs, 0 ≤ q ∧ q ≤ 1 := by
          simpa using hq
        have hlen : (0 : ℚ) < (((v :: vs).length : ℕ) : ℚ) := by
          exact_mod_cast Nat.succ_pos vs.length
        have hsum0 : 0 ≤ (v :: vs).sum :=
          List.sum_nonneg (fun x hx => (hmem x hx).1)
        have hsum1 : (v :: vs).sum ≤ ((v :: vs).length : ℚ) := by
          have := List.sum_le_card_nsmul (v :: vs) 1
            (fun x hx => (hmem x hx).2)
          simpa [nsmul_eq_mul] using this
        exact ⟨div_nonneg hsum0 hlen.le, (div_le_one hlen).mpr hsum1⟩
    exact round2_mem_unit
      (weighted_signals_unit ha0 ha1 hb0 hb1 hc0 hc1 hd.1 hd.2).1
      (weighted_signals_unit ha0 ha1 hb0 hb1 hc0 hc1 hd.1 hd.2).2
  · unfold calculate_goal_likelihood_score
    simp [List.filter]
    norm_num [round2, round_eq]

/-- Witness for the likelihood-score theorem: a singleton score list in
range, zero milestones and zero logs, result inside the unit interval. -/
theorem calculate_goal_likelihood_score_spec_witness :
    (∀ q ∈ (some [(1 : ℚ) / 2]).getD [], 0 ≤ q ∧ q ≤ 1) ∧
      (0 ≤ calculate_goal_likelihood_score 3 0 [] [] (some [1 / 2]) ∧
        calculate_goal_likelihood_score 3 0 [] [] (some [1 / 2]) ≤ 1) :=
  ⟨by norm_num,
    calculate_goal_likelihood_score_spec.2.1 3 0 [] [] (some [1 / 2])
      (by norm_num)⟩

/-- C7: `calculate_next_refresh_date` returns `base + interval` with
`base = last_refresh or now` and the cadence interval table
(daily ↦ 1 week, 3x_week and weekdays ↦ 2 weeks, weekly ↦ 4 weeks,
2-week default), except that a result not strictly after `now` is
recomputed as `now + interval`; the result is always strictly after
`now`. -/
theorem calculate_next_refresh_date_spec :
    (∀ cadence : String, ∀ last_refresh : Option ℤ, ∀ now : ℤ,
      calculate_next_refresh_date cadence last_refresh now =
        if last_refresh.getD now + refresh_interval cadence ≤ now then
          now + refresh_interval cadence
        else last_refresh.getD now + refresh_interval cadence) ∧
    refresh_interval "daily" = 7 ∧
    refresh_interval "3x_week" = 14 ∧
    refresh_interval "weekdays" = 14 ∧
    refresh_interval "weekly" = 28 ∧
    (∀ cadence : String, cadence ≠ "daily" → cadence ≠ "3x_week" →
      cadence ≠ "weekdays" → cadence ≠ "weekly" →
      refresh_interval cadence = 14) ∧
    (∀ cadence : String, ∀ last_refresh : Option ℤ, ∀ now : ℤ,
      now < calculate_next_refresh_date cadence last_refresh now) := by
  have hpos : ∀ cadence : String, 0 < refresh_interval cadence := by
    intro cadence
    unfold refresh_interval
    split_ifs <;> norm_num
  refine ⟨?_, rfl, rfl, rfl, rfl, ?_, ?_⟩
  · intro cadence last_refresh now
    rfl
  · intro cadence h1 h2 h3 h4
    unfold refresh_interval
    rw [if_neg h1, if_neg h2, if_neg h3, if_neg h4]
  · intro cadence last_refresh now
    unfold calculate_next_refresh_date
    have := hpos cadence
    dsimp only
    split_ifs with h
    · omega
    · omega

/-- Witness for the refresh-date theorem: an unknown cadence gets the
two-week default, and with a stale `last_refresh` the result is still
strictly after the call time. -/
theorem calculate_next_refresh_date_spec_witness :
    refresh_interval "biweekly" = 14 ∧
      (100 : ℤ) < calculate_next_refresh_date "daily" (some 3) 100 :=
  ⟨calculate_next_refresh_date_spec.2.2.2.2.2.1 "biweekly"
      (by decide) (by decide) (by decide) (by decide),
    calculate_next_refresh_date_spec.2.2.2.2.2.2 "daily" (some 3) 100⟩

/-- C10: a daily-session quiz passes exactly when its percentage score is
at least 70, `current_day` is incremented exactly when the quiz passed and
the submitted session is day `current_day + 1`, and a failed quiz leaves
`current_day` unchanged — a reinforcement session inserted at the failed
session's day number does not advance day progress. -/
theorem submit_quiz_spec :
    ∀ current_day : ℕ, ∀ session : SessionRow, ∀ correct total : ℕ,
      ∀ weak : List String, ∀ reinf : Bool, ∀ sessions : List SessionRow,
      ((submit_quiz current_day session correct total weak reinf
          sessions).2.2.2 = true ↔ 70 ≤ session_quiz_score correct total) ∧
      ((submit_quiz current_day session correct total weak reinf
          sessions).1 = current_day + 1 ↔
        ((submit_quiz current_day session correct total weak reinf
            sessions).2.2.2 = true ∧
          session.day_number = current_day + 1)) ∧
      ((submit_quiz current_day session correct total weak reinf
          sessions).2.2.2 = false →
        (submit_quiz current_day session correct total weak reinf
            sessions).1 = current_day ∧
          ((submit_quiz current_day session correct total weak reinf
              sessions).2.1 = sessions ∨
            (submit_quiz current_day session correct total weak reinf
                sessions).2.1 = sessions ++ [⟨session.day_number, true⟩])) := by
  intro current_day session correct total weak reinf sessions
  unfold submit_quiz
  dsimp only
  refine ⟨by simp, ?_, ?_⟩
  · split_ifs with h
    · simp [h]
    · constructor
      · intro he
        exact absurd he (by omega)
      · intro hab
        exact absurd hab h
  · intro hfail
    constructor
    · rw [if_neg]
      intro hab
      rw [hfail] at hab
      exact absurd hab.1 (by simp)
    · split_ifs with h
      · right
        rfl
      · left
        rfl

/-- Witness for the session-quiz theorem: zero correct answers out of one
question fail the quiz and leave `current_day` at 3. -/
theorem submit_quiz_spec_witness :
    (submit_quiz 3 ⟨4, false⟩ 0 1 ["c"] true []).1 = 3 ∧
      ((submit_quiz 3 ⟨4, false⟩ 0 1 ["c"] true []).2.1 = [] ∨
        (submit_quiz 3 ⟨4, false⟩ 0 1 ["c"] true []).2.1 =
          [] ++ [⟨4, true⟩]) :=
  (submit_quiz_spec 3 ⟨4, false⟩ 0 1 ["c"] true []).2.2
    (by norm_num [submit_quiz, session_quiz_score])

/-- C8: a progress log on a day that already has an entry is rejected with
the duplicate-day conflict, and a rejected request commits nothing; an
accepted log leaves exactly one entry for that day, preserves the
one-entry-per-goal-per-day invariant, and is itself rejected when
repeated the same day. -/
theorem log_progress_conflict_spec :
    ∀ logs : List ℤ, ∀ streak : Option Streak, ∀ today : ℤ,
      (today ∈ logs → log_progress logs streak today = .error .conflict) ∧
      (today ∉ logs →
        ∃ out, log_progress logs streak today = .ok out ∧
          log_progress out.1 out.2 today = .error .conflict ∧
          out.1.count today = 1 ∧
          (logs.Nodup → out.1.Nodup) ∧
          out.2 = streak.map (streak_update · today)) := by
  intro logs streak today
  constructor
  · intro h
    unfold log_progress
    rw [if_pos h]
  · intro h
    refine ⟨(today :: logs, streak.map (streak_update · today)),
      ?_, ?_, ?_, ?_, rfl⟩
    · unfold log_progress
      rw [if_neg h]
    · unfold log_progress
      rw [if_pos (List.mem_cons_self today logs)]
    · have h0 : logs.count today = 0 := by
        simpa using List.count_eq_zero.mpr h
      simp [List.count_cons, h0]
    · intro hn
      exact List.nodup_cons.mpr ⟨h, hn⟩

/-- Witness for the progress-log theorem: day 5 with an existing entry is
rejected; day 5 on an empty history is accepted and then rejected on
repeat. -/
theorem log_progress_conflict_spec_witness :
    log_progress [(5 : ℤ)] none 5 = .error .conflict ∧
      (∃ out, log_progress ([] : List ℤ) none 5 = .ok out ∧
        log_progress out.1 out.2 5 = .error .conflict ∧
        out.1.count 5 = 1 ∧
        (([] : List ℤ).Nodup → out.1.Nodup) ∧
        out.2 = (none : Option Streak).map (streak_update · 5)) :=
  ⟨(log_progress_conflict_spec [5] none 5).1 (by decide),
    (log_progress_conflict_spec [] none 5).2 (by decide)⟩

/-- C4: the verification-quiz lifecycle is write-once per progress entry —
generating against an entry that already has a quiz returns that same quiz
object and writes nothing, and submitting a quiz whose `is_completed` flag
is set is rejected with the double-submission conflict before any write. -/
theorem verification_quiz_write_once_spec :
    (∀ e : ProgressLogRow, ∀ quiz_data : QuizData, ∀ q : VerificationQuiz,
      e.verification_quiz = some q →
      generate_progress_verification e quiz_data = (q, e)) ∧
    (∀ quiz entry resolution streak grading_oracle recovery_oracle answers,
      ∀ today now : ℤ,
      quiz.is_completed = true →
      submit_verification_quiz quiz entry resolution streak grading_oracle
        recovery_oracle answers today now = .error .conflict) := by
  constructor
  · intro e quiz_data q h
    unfold generate_progress_verification
    rw [h]
  · intro quiz entry resolution streak go ro ans today now h
    unfold submit_verification_quiz
    rw [if_pos h]

/-- Witness for the write-once theorem: an entry with an attached quiz and
a completed quiz, at concrete values. -/
theorem verification_quiz_write_once_spec_witness :
    generate_progress_verification
        ⟨"c", none, false, none, [], some ⟨["q1"], [], "teach_back",
          none, none, false, none⟩⟩ ⟨["q2"], none⟩ =
      (⟨["q1"], [], "teach_back", none, none, false, none⟩,
        ⟨"c", none, false, none, [], some ⟨["q1"], [], "teach_back",
          none, none, false, none⟩⟩) ∧
      submit_verification_quiz ⟨["q1"], [], "teach_back", some (9 / 10),
          some true, true, some 0⟩ ⟨"c", none, true, some (9 / 10), [], none⟩
          ⟨"active", 0, false, []⟩ none none none [] 3 3 =
        .error .conflict :=
  ⟨verification_quiz_write_once_spec.1 _ _ _ rfl,
    verification_quiz_write_once_spec.2 _ _ _ _ _ _ _ _ _ rfl⟩

/-- C5: when the grading oracle fails, `grade_verification_quiz` returns
the deterministic fallback with `overall_score = 0.5` and `passed = true`;
submission then still completes the quiz and propagates the verdict and
score onto the parent progress entry in the same committed transition, and
the handler returns a success, never surfacing the upstream failure. -/
theorem grading_fallback_spec :
    grade_verification_quiz none = ⟨[], 1 / 2, true, []⟩ ∧
    (∀ quiz entry resolution streak recovery_oracle answers,
      ∀ today now : ℤ,
      quiz.is_completed = false →
      ∃ out, submit_verification_quiz quiz entry resolution streak none
          recovery_oracle answers today now = .ok out ∧
        out.quiz.is_completed = true ∧
        out.quiz.score = some (1 / 2) ∧
        out.quiz.passed = some true ∧
        out.quiz.completed_at = some now ∧
        out.entry.verified = true ∧
        out.entry.verification_score = some (1 / 2)) := by
  constructor
  · rfl
  · intro quiz entry resolution streak ro ans today now h
    unfold submit_verification_quiz
    rw [if_neg (by simp [h])]
    cases streak with
    | none => exact ⟨_, rfl, rfl, rfl, rfl, rfl, rfl, rfl⟩
    | some s => exact ⟨_, rfl, rfl, rfl, rfl, rfl, rfl, rfl⟩

/-- Witness for the grading-fallback theorem: a fresh quiz submitted while
the oracle is down is completed with score 0.5 and a passing verdict. -/
theorem grading_fallback_spec_witness :
    ∃ out, submit_verification_quiz
        ⟨["q1"], [], "teach_back", none, none, false, none⟩
        ⟨"c", none, false, none, [], none⟩ ⟨"active", 0, false, []⟩
        (some ⟨2, 3, 1, some 4, none⟩) none none ["a1"] 5 5 = .ok out ∧
      out.quiz.is_completed = true ∧
      out.quiz.score = some (1 / 2) ∧
      out.quiz.passed = some true ∧
      out.quiz.completed_at = some 5 ∧
      out.entry.verified = true ∧
      out.entry.verification_score = some (1 / 2) :=
  grading_fallback_spec.2 _ _ _ _ _ _ _ _ rfl

/-- Increment case of the streak update: when the last log was yesterday
or absent, the counter grows by one, the log date moves to today, and the
longest streak becomes the max of old longest and new current. -/
theorem streak_update_incr (s : Streak) (today : ℤ)
    (h : s.last_log_date = some (today - 1) ∨ s.last_log_date = none) :
    (streak_update s today).current_streak = s.current_streak + 1 ∧
      (streak_update s today).last_log_date = some today ∧
      (streak_update s today).longest_streak =
        max s.longest_streak (s.current_streak + 1) := by
  unfold streak_update
  rw [if_pos h]
  dsimp only
  split_ifs with hlt
  · exact ⟨rfl, rfl, by dsimp only; omega⟩
  · exact ⟨rfl, rfl, by dsimp only; omega⟩

/-- Invariant of an uninterrupted daily run from a fresh streak row: after
`n` consecutive daily logs the counter equals `n`, stays below the longest
streak, and the last log date is the last logged day. -/
theorem streak_run_props (s : Streak) (start : ℤ) (h0 : s.current_streak = 0)
    (hl : s.last_log_date = none) : ∀ n : ℕ,
    (streak_run s start n).current_streak = n ∧
      (streak_run s start n).current_streak ≤
        (streak_run s start n).longest_streak ∧
      (streak_run s start n).last_log_date =
        (if n = 0 then none else some (start + n - 1)) := by
  intro n
  induction n with
  | zero =>
    refine ⟨h0, ?_, by simpa [streak_run] using hl⟩
    show s.current_streak ≤ s.longest_streak
    rw [h0]
    exact Nat.zero_le _
  | succ k ih =>
    obtain ⟨ihc, ihl, ihd⟩ := ih
    have hrun : streak_run s start (k + 1) =
        streak_update (streak_run s start k) (start + k) := rfl
    have hcond : (streak_run s start k).last_log_date
        = some (start + k - 1) ∨
        (streak_run s start k).last_log_date = none := by
      rcases Nat.eq_zero_or_pos k with hk | hk
      · right
        rw [ihd, if_pos hk]
      · left
        rw [ihd, if_neg (by omega)]
    have step := streak_update_incr (streak_run s start k) (start + k) hcond
    refine ⟨?_, ?_, ?_⟩
    · rw [hrun, step.1, ihc]
    · rw [hrun, step.1, step.2.2]
      exact le_max_right _ _
    · rw [hrun, step.2.1, if_neg (Nat.succ_ne_zero k)]
      congr 1
      push_cast
      ring


/-- C3: on an accepted progress log, a last log of yesterday or null
increments the streak, a last log at least two days back resets it to 1,
and afterwards the longest streak is the max of old longest and new
current while the last log date becomes today; an uninterrupted daily run
from a fresh streak row makes the counter equal the run length with the
longest streak always at least the current one. -/
theorem log_progress_streak_spec :
    (∀ s : Streak, ∀ today : ℤ,
      s.last_log_date = some (today - 1) ∨ s.last_log_date = none →
      (streak_update s today).current_streak = s.current_streak + 1) ∧
    (∀ s : Streak, ∀ today d : ℤ,
      s.last_log_date = some d → d ≤ today - 2 →
      (streak_update s today).current_streak = 1) ∧
    (∀ s : Streak, ∀ today : ℤ, s.last_log_date ≠ some today →
      (streak_update s today).longest_streak =
        max s.longest_streak (streak_update s today).current_streak ∧
      (streak_update s today).last_log_date = some today) ∧
    (∀ s : Streak, ∀ start : ℤ, s.current_streak = 0 →
      s.last_log_date = none → ∀ n : ℕ,
      (streak_run s start n).current_streak = n ∧
      (streak_run s start n).current_streak ≤
        (streak_run s start n).longest_streak) := by
  refine ⟨?_, ?_, ?_, ?_⟩
  · intro s today h
    exact (streak_update_incr s today h).1
  · intro s today d hd hle
    have hno : ¬(s.last_log_date = some (today - 1) ∨
        s.last_log_date = none) := by
      rw [hd]
      intro hcase
      rcases hcase with h1 | h1
      · simp only [Option.some.injEq] at h1
        omega
      · simp at h1
    have hne : s.last_log_date ≠ some today := by
      rw [hd]
      intro h1
      simp only [Option.some.injEq] at h1
      omega
    unfold streak_update
    dsimp only
    rw [if_neg hno, if_pos hne]
    dsimp only
    split_ifs <;> rfl
  · intro s today h
    unfold streak_update
    dsimp only
    by_cases c1 : s.last_log_date = some (today - 1) ∨ s.last_log_date = none
    · rw [if_pos c1]
      dsimp only
      split_ifs with hlt
      · exact ⟨by dsimp only; omega, rfl⟩
      · exact ⟨by dsimp only; omega, rfl⟩
    · rw [if_neg c1, if_pos h]
      dsimp only
      split_ifs with hlt
      · exact ⟨by dsimp only; omega, rfl⟩
      · exact ⟨by dsimp only; omega, rfl⟩
  · intro s start h0 hl n
    exact ⟨(streak_run_props s start h0 hl n).1,
      (streak_run_props s start h0 hl n).2.1⟩

/-- Witness for the streak theorem: a two-day gap resets the counter to 1,
and a three-day uninterrupted run from a fresh row reaches streak 3. -/
theorem log_progress_streak_spec_witness :
    (streak_update ⟨4, 6, 0, some 7, none⟩ 10).current_streak = 1 ∧
      (streak_run ⟨0, 0, 0, none, none⟩ 100 3).current_streak = 3 ∧
      (streak_run ⟨0, 0, 0, none, none⟩ 100 3).current_streak ≤
        (streak_run ⟨0, 0, 0, none, none⟩ 100 3).longest_streak :=
  ⟨log_progress_streak_spec.2.1 ⟨4, 6, 0, some 7, none⟩ 10 7 rfl
      (by norm_num),
    (log_progress_streak_spec.2.2.2 ⟨0, 0, 0, none, none⟩ 100 rfl rfl 3).1,
    (log_progress_streak_spec.2.2.2 ⟨0, 0, 0, none, none⟩ 100 rfl rfl 3).2⟩

/-- C9: a quiz submission never writes milestone rows or the goal status,
a failing grade leaves the whole streak row unchanged (no activity-streak
reset, no verified-day increment), and the advisory failure analysis runs
only when the goal has an `in_progress` milestone. -/
theorem verification_failure_frame_spec :
    ∀ quiz entry resolution streak grading_oracle recovery_oracle answers,
      ∀ today now : ℤ, ∀ out : SubmitOutcome,
      submit_verification_quiz quiz entry resolution streak grading_oracle
          recovery_oracle answers today now = .ok out →
      out.resolution = resolution ∧
      ((grade_verification_quiz grading_oracle).passed = false →
        out.streak = streak ∧ out.streak_updated = false) ∧
      (out.recovery_advice.isSome = true →
        ∃ m ∈ resolution.milestones, m.status = "in_progress") := by
  intro quiz entry resolution streak go ro ans today now out hok
  unfold submit_verification_quiz at hok
  by_cases hc : quiz.is_completed = true
  · rw [if_pos hc] at hok
    exact absurd hok (by simp)
  · rw [if_neg hc] at hok
    dsimp only at hok
    cases streak with
    | none =>
      injection hok with h
      subst h
      refine ⟨rfl, fun _ => ⟨rfl, rfl⟩, ?_⟩
      intro hadv
      simp at hadv
    | some s =>
      dsimp only at hok
      by_cases hp : (grade_verification_quiz go).passed = true
      · rw [if_pos hp] at hok
        injection hok with h
        subst h
        refine ⟨rfl, ?_, ?_⟩
        · intro hf
          rw [hf] at hp
          exact absurd hp (by simp)
        · intro hadv
          simp at hadv
      · rw [if_neg hp] at hok
        cases hfind : resolution.milestones.find?
            (fun m => m.status = "in_progress") with
        | some m0 =>
          rw [hfind] at hok
          dsimp only at hok
          injection hok with h
          subst h
          refine ⟨rfl, fun _ => ⟨rfl, rfl⟩, ?_⟩
          intro _
          have hpred := List.find?_some hfind
          exact ⟨m0, List.mem_of_find?_eq_some hfind,
            of_decide_eq_true hpred⟩
        | none =>
          rw [hfind] at hok
          dsimp only at hok
          injection hok with h
          subst h
          refine ⟨rfl, fun _ => ⟨rfl, rfl⟩, ?_⟩
          intro hadv
          simp at hadv

/-- Witness for the failure-frame theorem: a failing grade on a goal with
an `in_progress` milestone invokes the analysis and changes neither the
streak row nor the resolution. -/
theorem verification_failure_frame_spec_witness :
    ∃ out, submit_verification_quiz
        ⟨["q"], [], "teach_back", none, none, false, none⟩
        ⟨"c", none, false, none, [], none⟩
        ⟨"active", 1, false,
          [⟨1, 1, "t", "", "v", none, "in_progress", false, none⟩]⟩
        (some ⟨2, 3, 1, some 4, none⟩) (some ⟨[], 0, false, []⟩) none [] 9 9
        = .ok out ∧
      out.resolution = ⟨"active", 1, false,
        [⟨1, 1, "t", "", "v", none, "in_progress", false, none⟩]⟩ ∧
      out.streak = some ⟨2, 3, 1, some 4, none⟩ ∧
      out.streak_updated = false ∧
      (∃ m ∈ (⟨"active", 1, false,
          [⟨1, 1, "t", "", "v", none, "in_progress", false, none⟩]⟩ :
            Resolution).milestones, m.status = "in_progress") := by
  refine ⟨_, rfl, ?_, ?_, ?_, ?_⟩
  · exact (verification_failure_frame_spec
      ⟨["q"], [], "teach_back", none, none, false, none⟩
      ⟨"c", none, false, none, [], none⟩
      ⟨"active", 1, false,
        [⟨1, 1, "t", "", "v", none, "in_progress", false, none⟩]⟩
      (some ⟨2, 3, 1, some 4, none⟩) (some ⟨[], 0, false, []⟩) none [] 9 9
      _ rfl).1
  · exact ((verification_failure_frame_spec
      ⟨["q"], [], "teach_back", none, none, false, none⟩
      ⟨"c", none, false, none, [], none⟩
      ⟨"active", 1, false,
        [⟨1, 1, "t", "", "v", none, "in_progress", false, none⟩]⟩
      (some ⟨2, 3, 1, some 4, none⟩) (some ⟨[], 0, false, []⟩) none [] 9 9
      _ rfl).2.1 rfl).1
  · exact ((verification_failure_frame_spec
      ⟨["q"], [], "teach_back", none, none, false, none⟩
      ⟨"c", none, false, none, [], none⟩
      ⟨"active", 1, false,
        [⟨1, 1, "t", "", "v", none, "in_progress", false, none⟩]⟩
      (some ⟨2, 3, 1, some 4, none⟩) (some ⟨[], 0, false, []⟩) none [] 9 9
      _ rfl).2.1 rfl).2
  · exact (verification_failure_frame_spec
      ⟨["q"], [], "teach_back", none, none, false, none⟩
      ⟨"c", none, false, none, [], none⟩
      ⟨"active", 1, false,
        [⟨1, 1, "t", "", "v", none, "in_progress", false, none⟩]⟩
      (some ⟨2, 3, 1, some 4, none⟩) (some ⟨[], 0, false, []⟩) none [] 9 9
      _ rfl).2.2 rfl

/-- Result of the minimum-by-order fold is one of the candidates. -/
theorem min_by_order_mem (m : Milestone) (l : List Milestone) :
    min_by_order m l ∈ m :: l := by
  unfold min_by_order
  induction l generalizing m with
  | nil => simp
  | cons x xs ih =>
    simp only [List.foldl_cons]
    have h := ih (if x.order < m.order then x else m)
    rcases List.mem_cons.mp h with h1 | h1
    · rw [h1]
      split_ifs
      · exact List.mem_cons_of_mem _ (List.mem_cons_self _ _)
      · exact List.mem_cons_self _ _
    · exact List.mem_cons_of_mem _ (List.mem_cons_of_mem _ h1)

/-- Result of the minimum-by-order fold has minimal order among the
candidates. -/
theorem min_by_order_le (m : Milestone) (l : List Milestone) :
    (min_by_order m l).order ≤ m.order ∧
      ∀ x ∈ l, (min_by_order m l).order ≤ x.order := by
  unfold min_by_order
  induction l generalizing m with
  | nil => simp
  | cons x xs ih =>
    simp only [List.foldl_cons]
    have h := ih (if x.order < m.order then x else m)
    constructor
    · refine le_trans h.1 ?_
      split_ifs with hx
      · omega
      · exact le_refl _
    · intro y hy
      rcases List.mem_cons.mp hy with h1 | h1
      · subst h1
        refine le_trans h.1 ?_
        split_ifs with hx
        · exact le_refl _
        · omega
      · exact h.2 y h1

/-- Characterization of the empty pending selection: no milestone of the
collection is pending. -/
theorem lowest_pending_iff_none (ms : List Milestone) :
    lowest_pending ms = none ↔ ∀ m ∈ ms, m.status ≠ "pending" := by
  unfold lowest_pending
  rcases hf : ms.filter (fun m => m.status = "pending") with _ | ⟨a, as⟩ <;>
    rw [hf]
  · constructor
    · intro _ m hm hp
      have hnp := List.filter_eq_nil_iff.mp hf m hm
      exact hnp (decide_eq_true hp)
    · intro _
      rfl
  · constructor
    · intro h
      simp at h
    · intro hall
      exfalso
      have ha : a ∈ ms.filter (fun m => m.status = "pending") := by
        rw [hf]
        exact List.mem_cons_self a as
      have hmf := List.mem_filter.mp ha
      exact hall a hmf.1 (of_decide_eq_true hmf.2)

/-- Properties of a successful pending selection: the returned milestone
belongs to the collection, is pending, and has minimal order among the
pending milestones. -/
theorem lowest_pending_some_props (ms : List Milestone) (nm : Milestone)
    (h : lowest_pending ms = some nm) :
    nm ∈ ms ∧ nm.status = "pending" ∧
      ∀ m ∈ ms, m.status = "pending" → nm.order ≤ m.order := by
  unfold lowest_pending at h
  rcases hf : ms.filter (fun m => m.status = "pending") with _ | ⟨a, as⟩ <;>
    rw [hf] at h
  · cases h
  · injection h with h1
    have hsub : ∀ x ∈ a :: as, x ∈ ms ∧ x.status = "pending" := by
      intro x hx
      have hxf : x ∈ ms.filter (fun m => m.status = "pending") := by
        rw [hf]
        exact hx
      have hmf := List.mem_filter.mp hxf
      exact ⟨hmf.1, of_decide_eq_true hmf.2⟩
    have hmem : nm ∈ a :: as := h1 ▸ min_by_order_mem a as
    have hle := min_by_order_le a as
    rw [h1] at hle
    refine ⟨(hsub nm hmem).1, (hsub nm hmem).2, ?_⟩
    intro m hm hp
    have hmf : m ∈ ms.filter (fun m => m.status = "pending") :=
      List.mem_filter.mpr ⟨hm, decide_eq_true hp⟩
    rw [hf] at hmf
    rcases List.mem_cons.mp hmf with h2 | h2
    · rw [h2]
      exact hle.1
    · exact hle.2 m h2

/-- Pending milestones after the completion write are exactly the pending
milestones other than the completed id. -/
theorem pending_set_completed (ms : List Milestone) (mid : ℕ) (now : ℤ)
    (m : Milestone) :
    (m ∈ ms.map (set_completed mid now) ∧ m.status = "pending") ↔
      (m ∈ ms ∧ m.status = "pending" ∧ m.id ≠ mid) := by
  constructor
  · rintro ⟨hm, hp⟩
    obtain ⟨m0, hm0, heq⟩ := List.mem_map.mp hm
    unfold set_completed at heq
    split_ifs at heq with hid
    · rw [← heq] at hp
      simp at hp
    · rw [heq] at hm0 hid
      exact ⟨hm0, hp, hid⟩
  · rintro ⟨hm, hp, hid⟩
    refine ⟨List.mem_map.mpr ⟨m, hm, ?_⟩, hp⟩
    unfold set_completed
    rw [if_neg hid]

/-- After the completion write, every milestone carrying the completed id
is completed with the completion timestamp. -/
theorem set_completed_id_status (ms : List Milestone) (mid : ℕ) (now : ℤ) :
    ∀ m ∈ ms.map (set_completed mid now), m.id = mid →
      m.status = "completed" ∧ m.completed_at = some now := by
  intro m hm hid
  obtain ⟨m0, hm0, heq⟩ := List.mem_map.mp hm
  unfold set_completed at heq
  split_ifs at heq with h0
  · rw [← heq]
    exact ⟨rfl, rfl⟩
  · rw [heq] at h0
    exact absurd hid h0

/-- A milestone collection with duplicate-free ids holds at most one
milestone of any given id. -/
theorem countP_id_le_one (ms : List Milestone)
    (h : (ms.map Milestone.id).Nodup) (x : ℕ) :
    ms.countP (fun m => m.id = x) ≤ 1 := by
  induction ms with
  | nil => simp
  | cons a t ih =>
    rw [List.map_cons, List.nodup_cons] at h
    rw [List.countP_cons]
    by_cases hax : a.id = x
    · have ht : t.countP (fun m => m.id = x) = 0 := by
        rw [List.countP_eq_zero]
        intro b hb hbx
        have hbid : b.id = x := of_decide_eq_true hbx
        exact h.1 (List.mem_map.mpr ⟨b, hb, by rw [hbid, hax]⟩)
      simp [ht, hax]
    · rw [decide_eq_false hax]
      simp only [Bool.false_eq_true, if_false]
      simpa using ih h.2

/-- C2: completing a milestone marks it completed with a completion
timestamp; when another pending milestone exists the lowest-order pending
one is promoted to `in_progress` and its order recorded in
`current_milestone`, with the goal status untouched; when no pending
milestone remains the goal is completed, and if the completed milestone
was the only `in_progress` one, no milestone remains `in_progress`. On
the spec's 4-milestone example, completing milestone 1 yields milestone 1
completed, milestone 2 `in_progress`, `current_milestone = 2`, goal
status unchanged. -/
theorem complete_milestone_spec :
    (∀ r : Resolution, ∀ mid : ℕ, ∀ now : ℤ,
      (∃ m ∈ r.milestones, m.id = mid) →
      ∃ r1, complete_milestone r mid now = .ok r1 ∧
        (∀ m1 ∈ r1.milestones, m1.id = mid →
          m1.status = "completed" ∧ m1.completed_at = some now) ∧
        ((∃ p ∈ r.milestones, p.status = "pending" ∧ p.id ≠ mid) →
          r1.status = r.status ∧
          ∃ nm ∈ r.milestones, nm.status = "pending" ∧ nm.id ≠ mid ∧
            r1.current_milestone = nm.order ∧
            (∀ p ∈ r.milestones, p.status = "pending" → p.id ≠ mid →
              nm.order ≤ p.order) ∧
            ∃ m1 ∈ r1.milestones, m1.id = nm.id ∧
              m1.status = "in_progress") ∧
        ((∀ p ∈ r.milestones, p.status = "pending" → p.id = mid) →
          r1.status = "completed" ∧
          ((∀ m ∈ r.milestones, m.status = "in_progress" → m.id = mid) →
            ∀ m1 ∈ r1.milestones, m1.status ≠ "in_progress"))) ∧
    complete_milestone
        ⟨"active", 1, false,
          [⟨1, 1, "m1", "", "c", none, "in_progress", false, none⟩,
            ⟨2, 2, "m2", "", "c", none, "pending", false, none⟩,
            ⟨3, 3, "m3", "", "c", none, "pending", false, none⟩,
            ⟨4, 4, "m4", "", "c", none, "pending", false, none⟩]⟩ 1 5 =
      .ok ⟨"active", 2, false,
        [⟨1, 1, "m1", "", "c", none, "completed", false, some 5⟩,
          ⟨2, 2, "m2", "", "c", none, "in_progress", false, none⟩,
          ⟨3, 3, "m3", "", "c", none, "pending", false, none⟩,
          ⟨4, 4, "m4", "", "c", none, "pending", false, none⟩]⟩ := by
  constructor
  · intro r mid now hmem
    have hfind : (r.milestones.find? (fun m => m.id = mid)).isSome = true := by
      rw [List.find?_isSome]
      obtain ⟨m, hm, hid⟩ := hmem
      exact ⟨m, hm, decide_eq_true hid⟩
    unfold complete_milestone
    rw [if_pos hfind]
    dsimp only
    cases hlp : lowest_pending (r.milestones.map (set_completed mid now)) with
    | some nm =>
      obtain ⟨hnmem, hnp, hnmin⟩ := lowest_pending_some_props _ nm hlp
      obtain ⟨hnm_r, hnp_r, hnid⟩ :=
        (pending_set_completed r.milestones mid now nm).mp ⟨hnmem, hnp⟩
      refine ⟨_, rfl, ?_, ?_, ?_⟩
      · intro m1 hm1 hid1
        obtain ⟨m2, hm2, heq⟩ := List.mem_map.mp hm1
        unfold promote at heq
        split_ifs at heq with h2
        · rw [← heq] at hid1
          dsimp at hid1
          exfalso
          apply hnid
          rw [← h2]
          exact hid1
        · subst heq
          exact set_completed_id_status r.milestones mid now m2 hm2 hid1
      · intro _
        refine ⟨rfl, nm, hnm_r, hnp_r, hnid, rfl, ?_, ?_⟩
        · intro p hp hpp hpid
          have hpm :=
            (pending_set_completed r.milestones mid now p).mpr ⟨hp, hpp, hpid⟩
          exact hnmin p hpm.1 hpm.2
        · refine ⟨promote nm.id nm, List.mem_map.mpr ⟨nm, hnmem, rfl⟩, ?_, ?_⟩
          · unfold promote
            rw [if_pos rfl]
          · unfold promote
            rw [if_pos rfl]
      · intro hnone
        exact absurd (hnone nm hnm_r hnp_r) hnid
    | none =>
      refine ⟨_, rfl, ?_, ?_, ?_⟩
      · exact set_completed_id_status r.milestones mid now
      · intro hp
        exfalso
        obtain ⟨p, hpr, hpp, hpid⟩ := hp
        have hpm :=
          (pending_set_completed r.milestones mid now p).mpr ⟨hpr, hpp, hpid⟩
        exact (lowest_pending_iff_none _).mp hlp p hpm.1 hpm.2
      · intro _
        refine ⟨rfl, ?_⟩
        intro honly m1 hm1 hip
        obtain ⟨m0, hm0, heq⟩ := List.mem_map.mp hm1
        unfold set_completed at heq
        split_ifs at heq with h0
        · rw [← heq] at hip
          simp at hip
        · subst heq
          exact absurd (honly m0 hm0 hip) h0
  · rfl

/-- Counterexample input for the milestone-completion claim: completing a
pending milestone while another is `in_progress`, with no further pending
milestone, completes the goal yet leaves a milestone `in_progress`. -/
theorem complete_milestone_leaves_in_progress :
    complete_milestone
        ⟨"active", 1, false,
          [⟨1, 1, "a", "", "c", none, "in_progress", false, none⟩,
            ⟨2, 2, "b", "", "c", none, "pending", false, none⟩]⟩ 2 0 =
      .ok ⟨"completed", 1, false,
        [⟨1, 1, "a", "", "c", none, "in_progress", false, none⟩,
          ⟨2, 2, "b", "", "c", none, "completed", false, some 0⟩]⟩ ∧
      in_progress_count
        [⟨1, 1, "a", "", "c", none, "in_progress", false, none⟩,
          ⟨2, 2, "b", "", "c", none, "completed", false, some (0 : ℤ)⟩] = 1 := by
  constructor
  · rfl
  · rfl

/-- Witness for the milestone-completion theorem: a single pending
milestone, completed; no pending remains so the goal completes. -/
theorem complete_milestone_spec_witness :
    ∃ r1, complete_milestone
        ⟨"active", 0, false,
          [⟨1, 1, "a", "", "c", none, "pending", false, none⟩]⟩ 1 0 =
        .ok r1 ∧
      (∀ m1 ∈ r1.milestones, m1.id = 1 →
        m1.status = "completed" ∧ m1.completed_at = some 0) ∧
      ((∃ p ∈ [(⟨1, 1, "a", "", "c", none, "pending", false, none⟩ :
            Milestone)], p.status = "pending" ∧ p.id ≠ 1) →
        r1.status = "active" ∧
        ∃ nm ∈ [(⟨1, 1, "a", "", "c", none, "pending", false, none⟩ :
            Milestone)], nm.status = "pending" ∧ nm.id ≠ 1 ∧
          r1.current_milestone = nm.order ∧
          (∀ p ∈ [(⟨1, 1, "a", "", "c", none, "pending", false, none⟩ :
              Milestone)], p.status = "pending" → p.id ≠ 1 →
            nm.order ≤ p.order) ∧
          ∃ m1 ∈ r1.milestones, m1.id = nm.id ∧
            m1.status = "in_progress") ∧
      ((∀ p ∈ [(⟨1, 1, "a", "", "c", none, "pending", false, none⟩ :
            Milestone)], p.status = "pending" → p.id = 1) →
        r1.status = "completed" ∧
        ((∀ m ∈ [(⟨1, 1, "a", "", "c", none, "pending", false, none⟩ :
              Milestone)], m.status = "in_progress" → m.id = 1) →
          ∀ m1 ∈ r1.milestones, m1.status ≠ "in_progress")) :=
  complete_milestone_spec.1
    ⟨"active", 0, false,
      [⟨1, 1, "a", "", "c", none, "pending", false, none⟩]⟩ 1 0
    ⟨⟨1, 1, "a", "", "c", none, "pending", false, none⟩, by simp, rfl⟩

/-- C1 (amended): `complete_milestone` is the only milestone-writing
operation that sets `in_progress` — roadmap (re)generation produces only
pending milestones and milestone edits preserve statuses — and the
at-most-one-`in_progress` invariant is preserved by the non-completion
operations unconditionally, and by `complete_milestone` whenever the
completed milestone is the only `in_progress` one (in particular when it
is the currently `in_progress` milestone, or none is). -/
theorem milestone_ops_one_in_progress_spec :
    (∀ r : Resolution, ∀ op : ResolutionOp, ∀ r1 : Resolution,
      (∀ mid : ℕ, ∀ now : ℤ, op ≠ .complete mid now) →
      run_op r op = .ok r1 →
      ∀ m1 ∈ r1.milestones, m1.status = "in_progress" →
        ∃ m ∈ r.milestones, m.id = m1.id ∧ m.status = "in_progress") ∧
    (∀ r : Resolution, ∀ op : ResolutionOp, ∀ r1 : Resolution,
      (∀ mid : ℕ, ∀ now : ℤ, op ≠ .complete mid now) →
      in_progress_count r.milestones ≤ 1 →
      run_op r op = .ok r1 →
      in_progress_count r1.milestones ≤ 1) ∧
    (∀ r : Resolution, ∀ mid : ℕ, ∀ now : ℤ, ∀ r1 : Resolution,
      (r.milestones.map Milestone.id).Nodup →
      (∀ m ∈ r.milestones, m.status = "in_progress" → m.id = mid) →
      complete_milestone r mid now = .ok r1 →
      in_progress_count r1.milestones ≤ 1) := by
  have hedit_status : ∀ mid : ℕ, ∀ data : MilestoneUpdate,
      ∀ m0 : Milestone,
      ((fun m => if m.id = mid then
          { m with
            title := data.title.getD m.title,
            description := data.description.getD m.description,
            verification_criteria :=
              data.verification_criteria.getD m.verification_criteria,
            target_date :=
              match data.target_date with
              | some d => some d
              | none => m.target_date,
            is_edited := true }
        else m) m0).status = m0.status := by
    intro mid data m0
    dsimp only
    split_ifs <;> rfl
  refine ⟨?_, ?_, ?_⟩
  · intro r op r1 hne hok m1 hm1 hip
    cases op with
    | complete mid now => exact absurd rfl (hne mid now)
    | roadmap drafts =>
      dsimp only [run_op] at hok
      injection hok with h
      subst h
      obtain ⟨d, _, heq⟩ := List.mem_map.mp hm1
      rw [← heq] at hip
      simp [new_milestone] at hip
    | update mid data =>
      dsimp only [run_op] at hok
      unfold update_milestone at hok
      split_ifs at hok with hf
      · injection hok with h
        subst h
        obtain ⟨m0, hm0, heq⟩ := List.mem_map.mp hm1
        refine ⟨m0, hm0, ?_, ?_⟩
        · rw [← heq]
          split_ifs <;> rfl
        · rw [← heq] at hip
          rw [← hedit_status mid data m0]
          exact hip
  · intro r op r1 hne hcount hok
    cases op with
    | complete mid now => exact absurd rfl (hne mid now)
    | roadmap drafts =>
      dsimp only [run_op] at hok
      injection hok with h
      subst h
      unfold in_progress_count replace_roadmap
      dsimp only
      rw [List.countP_map, List.countP_eq_zero.mpr]
      · omega
      · intro d _ hd
        have : (new_milestone d).status = "in_progress" :=
          of_decide_eq_true hd
        simp [new_milestone] at this
    | update mid data =>
      dsimp only [run_op] at hok
      unfold update_milestone at hok
      split_ifs at hok with hf
      · injection hok with h
        subst h
        unfold in_progress_count at hcount ⊢
        dsimp only
        rw [List.countP_map]
        rw [List.countP_congr]
        · exact hcount
        · intro m0 _
          constructor
          · intro hd
            have := of_decide_eq_true hd
            rw [hedit_status mid data m0] at this
            exact decide_eq_true this
          · intro hd
            have hst := of_decide_eq_true hd
            refine decide_eq_true ?_
            rw [hedit_status mid data m0]
            exact hst
  · intro r mid now r1 hnodup honly hok
    unfold complete_milestone at hok
    by_cases hfind :
        (r.milestones.find? (fun m => m.id = mid)).isSome = true
    · rw [if_pos hfind] at hok
      dsimp only at hok
      have hzero : List.countP (fun m => m.status = "in_progress")
          (r.milestones.map (set_completed mid now)) = 0 := by
        rw [List.countP_map, List.countP_eq_zero]
        intro m0 hm0 hc
        have hst : (set_completed mid now m0).status = "in_progress" :=
          of_decide_eq_true hc
        unfold set_completed at hst
        split_ifs at hst with h0
        · simp at hst
        · exact h0 (honly m0 hm0 hst)
      cases hlp : lowest_pending (r.milestones.map (set_completed mid now))
          with
      | some nm =>
        rw [hlp] at hok
        injection hok with h
        subst h
        unfold in_progress_count
        dsimp only
        rw [List.countP_map]
        have h1 : List.countP
            ((fun m => decide (m.status = "in_progress")) ∘ promote nm.id)
            (r.milestones.map (set_completed mid now)) =
            List.countP (fun m => decide (m.id = nm.id))
              (r.milestones.map (set_completed mid now)) := by
          refine List.countP_congr ?_
          intro m hm
          by_cases hid : m.id = nm.id
          · constructor
            · intro _
              exact decide_eq_true hid
            · intro _
              refine decide_eq_true ?_
              show (promote nm.id m).status = "in_progress"
              unfold promote
              rw [if_pos hid]
          · have hnip : ¬m.status = "in_progress" := by
              have := List.countP_eq_zero.mp hzero m hm
              intro hc
              exact this (decide_eq_true hc)
            constructor
            · intro hd
              exfalso
              have hst : (promote nm.id m).status = "in_progress" :=
                of_decide_eq_true hd
              unfold promote at hst
              rw [if_neg hid] at hst
              exact hnip hst
            · intro hd
              exact absurd (of_decide_eq_true hd) hid
        rw [h1, List.countP_map]
        have h2 : List.countP
            ((fun m => decide (m.id = nm.id)) ∘ set_completed mid now)
            r.milestones =
            List.countP (fun m => decide (m.id = nm.id)) r.milestones := by
          refine List.countP_congr ?_
          intro m0 _
          have hidpres : (set_completed mid now m0).id = m0.id := by
            unfold set_completed
            split_ifs <;> rfl
          rw [Function.comp_apply, hidpres]
        rw [h2]
        exact countP_id_le_one r.milestones hnodup nm.id
      | none =>
        rw [hlp] at hok
        injection hok with h
        subst h
        unfold in_progress_count
        dsimp only
        omega
    · rw [if_neg hfind] at hok
      exact absurd hok (by simp)

/-- Counterexample input for the one-`in_progress` invariant claim: from a
freshly generated all-pending roadmap, completing milestone 1 and then
completing the still-pending milestone 3 — three public operations — ends
with milestones 2 and 4 both `in_progress`. -/
theorem complete_milestone_invariant_violation :
    run_op ⟨"active", 0, false, []⟩
        (.roadmap [⟨1, 1, "m1", "", "c", none⟩, ⟨2, 2, "m2", "", "c", none⟩,
          ⟨3, 3, "m3", "", "c", none⟩, ⟨4, 4, "m4", "", "c", none⟩]) =
      .ok ⟨"active", 0, false,
        [⟨1, 1, "m1", "", "c", none, "pending", false, none⟩,
          ⟨2, 2, "m2", "", "c", none, "pending", false, none⟩,
          ⟨3, 3, "m3", "", "c", none, "pending", false, none⟩,
          ⟨4, 4, "m4", "", "c", none, "pending", false, none⟩]⟩ ∧
    run_op ⟨"active", 0, false,
        [⟨1, 1, "m1", "", "c", none, "pending", false, none⟩,
          ⟨2, 2, "m2", "", "c", none, "pending", false, none⟩,
          ⟨3, 3, "m3", "", "c", none, "pending", false, none⟩,
          ⟨4, 4, "m4", "", "c", none, "pending", false, none⟩]⟩
        (.complete 1 0) =
      .ok ⟨"active", 2, false,
        [⟨1, 1, "m1", "", "c", none, "completed", false, some 0⟩,
          ⟨2, 2, "m2", "", "c", none, "in_progress", false, none⟩,
          ⟨3, 3, "m3", "", "c", none, "pending", false, none⟩,
          ⟨4, 4, "m4", "", "c", none, "pending", false, none⟩]⟩ ∧
    run_op ⟨"active", 2, false,
        [⟨1, 1, "m1", "", "c", none, "completed", false, some 0⟩,
          ⟨2, 2, "m2", "", "c", none, "in_progress", false, none⟩,
          ⟨3, 3, "m3", "", "c", none, "pending", false, none⟩,
          ⟨4, 4, "m4", "", "c", none, "pending", false, none⟩]⟩
        (.complete 3 0) =
      .ok ⟨"active", 4, false,
        [⟨1, 1, "m1", "", "c", none, "completed", false, some 0⟩,
          ⟨2, 2, "m2", "", "c", none, "in_progress", false, none⟩,
          ⟨3, 3, "m3", "", "c", none, "completed", false, some 0⟩,
          ⟨4, 4, "m4", "", "c", none, "in_progress", false, none⟩]⟩ ∧
    in_progress_count
        [⟨1, 1, "m1", "", "c", none, "pending", false, none⟩,
          ⟨2, 2, "m2", "", "c", none, "pending", false, none⟩,
          ⟨3, 3, "m3", "", "c", none, "pending", false, none⟩,
          ⟨4, 4, "m4", "", "c", none, "pending", false, none⟩] = 0 ∧
    in_progress_count
        [⟨1, 1, "m1", "", "c", none, "completed", false, some (0 : ℤ)⟩,
          ⟨2, 2, "m2", "", "c", none, "in_progress", false, none⟩,
          ⟨3, 3, "m3", "", "c", none, "pending", false, none⟩,
          ⟨4, 4, "m4", "", "c", none, "pending", false, none⟩] = 1 ∧
    in_progress_count
        [⟨1, 1, "m1", "", "c", none, "completed", false, some (0 : ℤ)⟩,
          ⟨2, 2, "m2", "", "c", none, "in_progress", false, none⟩,
          ⟨3, 3, "m3", "", "c", none, "completed", false, some 0⟩,
          ⟨4, 4, "m4", "", "c", none, "in_progress", false, none⟩] = 2 :=
  ⟨rfl, rfl, rfl, rfl, rfl, rfl⟩

/-- Witness for the invariant theorem: completing the milestone that is
currently `in_progress` keeps the count at most one, and an edit never
raises it. -/
theorem milestone_ops_one_in_progress_spec_witness :
    in_progress_count
        [⟨1, 1, "m1", "", "c", none, "completed", false, some (0 : ℤ)⟩,
          ⟨2, 2, "m2", "", "c", none, "completed", false, some 0⟩,
          ⟨3, 3, "m3", "", "c", none, "in_progress", false, none⟩,
          ⟨4, 4, "m4", "", "c", none, "pending", false, none⟩] ≤ 1 ∧
      in_progress_count
        [⟨1, 1, "m1", "", "c", none, "completed", false, some (0 : ℤ)⟩,
          ⟨2, 2, "m2", "", "c", none, "in_progress", true, none⟩,
          ⟨3, 3, "m3", "", "c", none, "pending", false, none⟩,
          ⟨4, 4, "m4", "", "c", none, "pending", false, none⟩] ≤ 1 :=
  ⟨milestone_ops_one_in_progress_spec.2.2
      ⟨"active", 2, false,
        [⟨1, 1, "m1", "", "c", none, "completed", false, some 0⟩,
          ⟨2, 2, "m2", "", "c", none, "in_progress", false, none⟩,
          ⟨3, 3, "m3", "", "c", none, "pending", false, none⟩,
          ⟨4, 4, "m4", "", "c", none, "pending", false, none⟩]⟩ 2 0
      ⟨"active", 3, false,
        [⟨1, 1, "m1", "", "c", none, "completed", false, some 0⟩,
          ⟨2, 2, "m2", "", "c", none, "completed", false, some 0⟩,
          ⟨3, 3, "m3", "", "c", none, "in_progress", false, none⟩,
          ⟨4, 4, "m4", "", "c", none, "pending", false, none⟩]⟩
      (by decide) (by decide) rfl,
    milestone_ops_one_in_progress_spec.2.1
      ⟨"active", 2, false,
        [⟨1, 1, "m1", "", "c", none, "completed", false, some 0⟩,
          ⟨2, 2, "m2", "", "c", none, "in_progress", false, none⟩,
          ⟨3, 3, "m3", "", "c", none, "pending", false, none⟩,
          ⟨4, 4, "m4", "", "c", none, "pending", false, none⟩]⟩
      (.update 2 ⟨none, none, none, none⟩)
      ⟨"active", 2, true,
        [⟨1, 1, "m1", "", "c", none, "completed", false, some 0⟩,
          ⟨2, 2, "m2", "", "c", none, "in_progress", true, none⟩,
          ⟨3, 3, "m3", "", "c", none, "pending", false, none⟩,
          ⟨4, 4, "m4", "", "c", none, "pending", false, none⟩]⟩
      (fun mid now h => ResolutionOp.noConfusion h) (by decide) rfl⟩
